import Mathlib

set_option autoImplicit false
set_option maxRecDepth 4000

/-!
Shallow embedding of the `TargetProjectLocator` import-resolution engine
(`src/packages/gradle/src/utils/get-gradle-report.ts`, second document,
lines 315-600).  The class fields become a `LocatorState` record, the
injected collaborators (typescript resolution, external package-descriptor
lookup, package.json reading, `require.resolve`) become an `Env` record of
pure functions returning `Except Unit _` so that thrown exceptions are
observable, and a `Calls` record counts every collaborator invocation.
-/

/-! ## Character-list string utilities (JS string operations) -/

/-- The characters of a string. -/
def strChars (s : String) : List Char := s.data

/-- Build a string back from its characters. -/
def ofChars (l : List Char) : String := ⟨l⟩

/-- JS `a.startsWith(b)`. -/
def strStartsWith (s pre : String) : Bool := pre.data.isPrefixOf s.data

/-- JS `a.endsWith(b)`. -/
def strEndsWith (s suf : String) : Bool := suf.data.reverse.isPrefixOf s.data.reverse

/-- Does `sub` occur as a contiguous run inside `l`? -/
def hasSubSeq (sub : List Char) : List Char → Bool
  | [] => sub.isEmpty
  | c :: cs => sub.isPrefixOf (c :: cs) || hasSubSeq sub cs

/-- JS `a.includes(b)` / `a.indexOf(b) !== -1`. -/
def strContainsSub (s sub : String) : Bool := hasSubSeq sub.data s.data

/-- Drop the last `n` characters (JS-style suffix removal). -/
def dropRightStr (s : String) (n : Nat) : String :=
  ofChars (s.data.take (s.data.length - n))

/-- Drop the first `n` characters. -/
def dropLeftStr (s : String) (n : Nat) : String := ofChars (s.data.drop n)

/-- Split a character list at a separator, JS `split` semantics
(keeps empty pieces, always returns at least one piece). -/
def splitSeg (sep : Char) : List Char → List (List Char)
  | [] => [[]]
  | c :: cs =>
    match splitSeg sep cs with
    | [] => [[]]
    | h :: t => if c = sep then [] :: h :: t else (c :: h) :: t

/-- Join pieces back with the separator (JS `Array.prototype.join`). -/
def joinSegsC (sep : Char) : List (List Char) → List Char
  | [] => []
  | [x] => x
  | x :: y :: t => x ++ sep :: joinSegsC sep (y :: t)

/-- JS `s.split('/')`. -/
def strSplitSlash (s : String) : List String := (splitSeg '/' s.data).map ofChars

/-- Join strings with `/` (JS `arr.join('/')`). -/
def joinSlash (l : List String) : String := ofChars (joinSegsC '/' (l.map strChars))

/-- JS truthiness of a `string | null | undefined` value: `null`,
`undefined` and the empty string are falsy. -/
def jsTruthy : Option String → Bool
  | none => false
  | some s => !(s == "")

/-! ## Node `path` module (host collaborators, POSIX flavour) -/

/-- Is the path absolute? -/
def isAbsPath (s : String) : Bool := strStartsWith s "/"

/-- Non-empty path segments of a path string. -/
def pathSegs (s : String) : List String :=
  ((splitSeg '/' s.data).filter (fun seg => !seg.isEmpty)).map ofChars

/-- Normalization walk for `.` and `..` segments (accumulator reversed). -/
def normSegsAux : List String → List String → List String
  | acc, [] => acc.reverse
  | acc, "." :: rest => normSegsAux acc rest
  | acc, ".." :: rest =>
    match acc with
    | [] => normSegsAux [".."] rest
    | a :: as => if a == ".." then normSegsAux (".." :: a :: as) rest else normSegsAux as rest
  | acc, x :: rest => normSegsAux (x :: acc) rest

/-- Normalize a segment list, resolving `.` and `..`. -/
def normSegs (l : List String) : List String := normSegsAux [] l

/-- Drop `..` segments that would climb above an absolute root. -/
def dropUps : List String → List String
  | ".." :: rest => dropUps rest
  | l => l

/-- Node `path.join` (also `path.posix.join`) for the paths this engine
handles. -/
def joinPath (a b : String) : String :=
  let segs := normSegs (pathSegs a ++ pathSegs b)
  if isAbsPath a then
    match dropUps segs with
    | [] => "/"
    | l => "/" ++ joinSlash l
  else
    match segs with
    | [] => "."
    | l => joinSlash l

/-- Node `path.dirname`. -/
def dirname (s : String) : String :=
  if isAbsPath s then
    match pathSegs s with
    | [] => "/"
    | [_] => "/"
    | segs => "/" ++ joinSlash segs.dropLast
  else
    match pathSegs s with
    | [] => "."
    | [_] => "."
    | segs => joinSlash segs.dropLast

/-- Strip the longest common leading run of two segment lists. -/
def dropCommon : List String → List String → List String × List String
  | a :: as, b :: bs => if a == b then dropCommon as bs else (a :: as, b :: bs)
  | as, bs => (as, bs)

/-- Node `path.relative` / `path.posix.relative` for paths that are either
both workspace-relative or both absolute. -/
def relativePath (f t : String) : String :=
  let p := dropCommon (normSegs (pathSegs f)) (normSegs (pathSegs t))
  match List.replicate p.1.length ".." ++ p.2 with
  | [] => ""
  | l => joinSlash l

/-! ## Data model -/

/-- An internal project node (`ProjectGraphProjectNode`): its unique name
and its workspace-relative root. -/
structure ProjectNode where
  name : String
  root : String
  deriving Repr, DecidableEq

/-- An external dependency node (`ProjectGraphExternalNode`): graph node
name plus declared package name and version. -/
structure ExternalNode where
  name : String
  packageName : String
  version : String
  deriving Repr, DecidableEq

/-- A parsed `package.json` (only the fields the locator reads). -/
structure PackageJson where
  name : String
  version : String
  deriving Repr, DecidableEq

/-- The injected collaborators of the locator, as pure functions.  A
`Except.error ()` result models the collaborator throwing. -/
structure Env where
  builtinModules : List String
  resolveModuleByImport : String → String → Option String → Except Unit (Option String)
  findExternalPackageJsonPath : String → String → Except Unit (Option String)
  readPackageJson : String → Except Unit PackageJson
  requireResolve : String → String → Except Unit String

/-- Ghost call counters for the collaborators (for the published
"no extra filesystem/fallback work" properties). -/
structure Calls where
  tsResolveCalls : Nat := 0
  pkgLookupCalls : Nat := 0
  readPkgCalls : Nat := 0
  requireCalls : Nat := 0
  deriving Repr, DecidableEq

/-- The instance fields of `TargetProjectLocator`.  All fields other than
the two caches are built once in the constructor / field initializers. -/
structure LocatorState where
  nodes : List (String × ProjectNode)
  externalNodes : List (String × ExternalNode)
  projectRootMappings : List (String × String)
  npmProjects : List ExternalNode
  tsConfigPresent : Bool
  tsConfigAbsolutePath : Option String
  paths : Option (List (String × List String))
  typescriptResolutionCache : List (String × Option String)
  npmResolutionCache : List (String × Option String)
  deriving Repr, DecidableEq

/-! ## Collaborator functions modelled from the spec
(their sources are referenced by the class but are not under `src/`). -/

/-- Modelled from the spec: the absolute workspace root constant imported
from `utils/workspace-root`. -/
def workspaceRoot : String := "/workspace"

/-- Modelled from the spec: `isRelativePath` from `utils/fileutils` — a
syntactically relative specifier (`.`, `..`, `./...`, `../...`). -/
def isRelativePath (path : String) : Bool :=
  path == "." || path == ".." || strStartsWith path "./" || strStartsWith path "../"

/-- Modelled from the spec (§4.1): `createProjectRootMappings` builds the
read-only index from each node's normalized root path to its project
identifier (the node key). -/
def createProjectRootMappings (nodes : List (String × ProjectNode)) :
    List (String × String) :=
  nodes.map (fun kv => (kv.2.root, kv.1))

/-- All prefixes of a list, shortest first. -/
def prefixesAsc {α : Type} : List α → List (List α)
  | [] => [[]]
  | x :: xs => [] :: (prefixesAsc xs).map (x :: ·)

/-- First value bound to `k` in an association list (JS object property
access / `Map.prototype.get`). -/
def assocFind {α : Type} (m : List (String × α)) (k : String) : Option α :=
  (m.find? (fun kv => kv.1 == k)).map (fun kv => kv.2)

/-- Modelled from the spec (§4.1): `findProjectForPath` — longest
matching prefix of the path (on segment boundaries) among the project
roots of the mapping. -/
def findProjectForPath (path : String) (m : List (String × String)) : Option String :=
  ((prefixesAsc (pathSegs path)).reverse).findSome? (fun pre => assocFind m (joinSlash pre))

/-! ## Cache operations (JS `Map` has/get/set) -/

/-- `Map.prototype.has`. -/
def mapHas (m : List (String × Option String)) (k : String) : Bool :=
  (m.find? (fun kv => kv.1 == k)).isSome

/-- `Map.prototype.get`, collapsing a stored `null` and a missing key to
`none` (both are falsy and interchangeable where the class reads them). -/
def mapGet (m : List (String × Option String)) (k : String) : Option String :=
  match m.find? (fun kv => kv.1 == k) with
  | some kv => kv.2
  | none => none

/-- `Map.prototype.set` (later entries shadow earlier ones). -/
def mapSet (m : List (String × Option String)) (k : String) (v : Option String) :
    List (String × Option String) :=
  (k, v) :: m

/-! ## The locator, one definition per source method -/

/-- Module-level `builtInModuleSet`: the runtime's builtin module names
with and without the `node:` prefix. -/
def builtInModuleSet (env : Env) : List String :=
  env.builtinModules ++ env.builtinModules.map (fun x => "node:" ++ x)

/-- `parsePackageNameFromImportExpression`: first two `/`-segments for a
scoped (`@`-leading) specifier, the first segment otherwise. -/
def parsePackageNameFromImportExpression (importExpression : String) : String :=
  if strStartsWith importExpression "@" then
    joinSlash ((strSplitSlash importExpression).take 2)
  else
    ((strSplitSlash importExpression).headD "")

/-- `findMatchingProjectFiles`: index lookup then `this.nodes[project]`. -/
def findMatchingProjectFiles (s : LocatorState) (file : String) : Option ProjectNode :=
  match findProjectForPath file s.projectRootMappings with
  | some project => assocFind s.nodes project
  | none => none

/-- `findProjectOfResolvedModule`: reject `node_modules` paths, strip a
leading `./`, then map the path to a project name. -/
def findProjectOfResolvedModule (s : LocatorState) (resolvedModule : String) :
    Option String :=
  if strStartsWith resolvedModule "node_modules/" ||
      strContainsSub resolvedModule "/node_modules/" then
    none
  else
    let normalizedResolvedModule :=
      if strStartsWith resolvedModule "./" then dropLeftStr resolvedModule 2
      else resolvedModule
    (findMatchingProjectFiles s normalizedResolvedModule).map (fun n => n.name)

/-- The wildcard-pattern condition of `findPaths`: the key ends in `/*`
and the specifier either starts with the key minus the `*` or equals the
key minus the `/*`. -/
def wildcardMatches (path normalizedImportExpr : String) : Bool :=
  strEndsWith path "/*" &&
    (strStartsWith normalizedImportExpr
        (if strEndsWith path "*" then dropRightStr path 1 else path) ||
      normalizedImportExpr ==
        (if strEndsWith path "/*" then dropRightStr path 2 else path))

/-- `findPaths`: exact alias key first, then the first wildcard key of
the table that matches. -/
def findPaths (s : LocatorState) (normalizedImportExpr : String) :
    Option (String × List String) :=
  match s.paths with
  | none => none
  | some table =>
    match assocFind table normalizedImportExpr with
    | some targets => some (normalizedImportExpr, targets)
    | none =>
      match (table.map (fun kv => kv.1)).find?
          (fun path => wildcardMatches path normalizedImportExpr) with
      | some wildcardPath => some (wildcardPath, (assocFind table wildcardPath).getD [])
      | none => none

/-- Candidate expansion inside the `findPaths` result loop:
`p.endsWith('/*') ? join(dirname(p), relative(path.replace(/\x2a$/, ''), importExpr)) : p`. -/
def expandPathTarget (path importExpr p : String) : String :=
  if strEndsWith p "/*" then
    joinPath (dirname p)
      (relativePath (if strEndsWith path "*" then dropRightStr path 1 else path) importExpr)
  else p

/-- The strategy-2 loop of `findProjectWithImport`: first truthy project
among the expanded alias targets. -/
def tryPaths (s : LocatorState) (importExpr : String) : Option String :=
  match findPaths s importExpr with
  | none => none
  | some (path, ps) =>
    ps.findSome? (fun p =>
      let r := findProjectOfResolvedModule s (expandPathTarget path importExpr p)
      if jsTruthy r then r else none)

/-- `findNpmPackage`: cached external-package resolution; the whole body
after the cache probe sits in a `try` whose `catch` returns `undefined`. -/
def findNpmPackage (env : Env) (s : LocatorState) (c : Calls)
    (importExpr projectRoot : String) : Option String × LocatorState × Calls :=
  let packageName := parsePackageNameFromImportExpression importExpr
  let npmImportForProject := packageName ++ "__" ++ projectRoot
  if mapHas s.npmResolutionCache npmImportForProject then
    (mapGet s.npmResolutionCache npmImportForProject, s, c)
  else
    let c := { c with pkgLookupCalls := c.pkgLookupCalls + 1 }
    match env.findExternalPackageJsonPath packageName (joinPath workspaceRoot projectRoot) with
    | Except.error _ => (none, s, c)
    | Except.ok none => (none, s, c)
    | Except.ok (some externalPackageJsonPath) =>
      if externalPackageJsonPath == "" then (none, s, c)
      else
        let c := { c with readPkgCalls := c.readPkgCalls + 1 }
        match env.readPackageJson externalPackageJsonPath with
        | Except.error _ => (none, s, c)
        | Except.ok externalPackageJson =>
          match s.npmProjects.find? (fun pkg =>
              pkg.packageName == externalPackageJson.name &&
              pkg.version == externalPackageJson.version) with
          | none => (none, s, c)
          | some matchingExternalNode =>
            let s :=
              { s with npmResolutionCache :=
                  mapSet s.npmResolutionCache npmImportForProject (some matchingExternalNode.name) }
            (some matchingExternalNode.name, s, c)

/-- The guard-and-lookup tail of `resolveImportWithTypescript`
(`resolvedModule && resolvedModule.indexOf('node_modules/') === -1`
followed by the project lookup). -/
def tsCheck (s : LocatorState) (resolvedModule : Option String) : Option String :=
  match resolvedModule with
  | none => none
  | some m =>
    if m == "" then none
    else if strContainsSub m "node_modules/" then none
    else
      let resolvedProject := findProjectOfResolvedModule s m
      if jsTruthy resolvedProject then resolvedProject else none

/-- `resolveImportWithTypescript`: per-specifier cached call of the
typescript resolver; note the body has no `try`, so a thrown error
escapes (modelled by propagating `Except.error`). -/
def resolveImportWithTypescript (env : Env) (s : LocatorState) (c : Calls)
    (normalizedImportExpr filePath : String) :
    Except Unit (Option String) × LocatorState × Calls :=
  if mapHas s.typescriptResolutionCache normalizedImportExpr then
    (Except.ok (tsCheck s (mapGet s.typescriptResolutionCache normalizedImportExpr)), s, c)
  else
    let c := { c with tsResolveCalls := c.tsResolveCalls + 1 }
    match env.resolveModuleByImport normalizedImportExpr filePath s.tsConfigAbsolutePath with
    | Except.error u => (Except.error u, s, c)
    | Except.ok resolvedModule =>
      let stored := if jsTruthy resolvedModule then resolvedModule else none
      let s1 :=
        { s with typescriptResolutionCache :=
            mapSet s.typescriptResolutionCache normalizedImportExpr stored }
      (Except.ok (tsCheck s1 resolvedModule), s1, c)

/-- The final strategy of `findProjectWithImport`: `resolveImportWithRequire`
inside `try`/`catch`, then on failure the terminal no-match cache write of
line 425 (`npmResolutionCache.set(importExpr, null)`). -/
def afterTs (env : Env) (s : LocatorState) (c : Calls)
    (importExpr filePath : String) :
    Except Unit (Option String) × LocatorState × Calls :=
  let c := { c with requireCalls := c.requireCalls + 1 }
  match env.requireResolve importExpr (dirname filePath) with
  | Except.ok abs =>
    (Except.ok (findProjectOfResolvedModule s (relativePath workspaceRoot abs)), s, c)
  | Except.error _ =>
    (Except.ok none,
     { s with npmResolutionCache := mapSet s.npmResolutionCache importExpr none }, c)

/-- Strategies 5-7 of `findProjectWithImport`: typescript resolution when a
tsconfig was loaded, then the `require` fallback. -/
def afterNpm (env : Env) (s : LocatorState) (c : Calls)
    (importExpr filePath : String) :
    Except Unit (Option String) × LocatorState × Calls :=
  if s.tsConfigPresent then
    match resolveImportWithTypescript env s c importExpr filePath with
    | (Except.error u, s1, c1) => (Except.error u, s1, c1)
    | (Except.ok resolvedProject, s1, c1) =>
      if jsTruthy resolvedProject then (Except.ok resolvedProject, s1, c1)
      else afterTs env s1 c1 importExpr filePath
  else afterTs env s c importExpr filePath

/-- `findProjectWithImport` — the public resolution entry point, with the
source's strategy order: relative, tsconfig paths, builtin short-circuit,
npm package, typescript resolution, `require`, terminal no-match. -/
def findProjectWithImport (env : Env) (s : LocatorState) (c : Calls)
    (importExpr projectRoot filePath : String) :
    Except Unit (Option String) × LocatorState × Calls :=
  if isRelativePath importExpr then
    (Except.ok (findProjectOfResolvedModule s (joinPath (dirname filePath) importExpr)), s, c)
  else
    match tryPaths s importExpr with
    | some maybeResolvedProject => (Except.ok (some maybeResolvedProject), s, c)
    | none =>
      if (builtInModuleSet env).contains importExpr then
        (Except.ok none,
         { s with npmResolutionCache := mapSet s.npmResolutionCache importExpr none }, c)
      else
        match findNpmPackage env s c importExpr projectRoot with
        | (npmProject, s1, c1) =>
          if jsTruthy npmProject then (Except.ok npmProject, s1, c1)
          else afterNpm env s1 c1 importExpr filePath

/-- The constructor and field initializers of `TargetProjectLocator`; the
tsconfig data (loaded by the `getRootTsConfig` collaborator) is passed in
already read. -/
def mkLocator (nodes : List (String × ProjectNode))
    (externalNodes : List (String × ExternalNode))
    (tsConfigPresent : Bool) (tsConfigAbsolutePath : Option String)
    (paths : Option (List (String × List String))) : LocatorState :=
  { nodes := nodes
    externalNodes := externalNodes
    projectRootMappings := createProjectRootMappings nodes
    npmProjects :=
      (externalNodes.filter (fun kv => strStartsWith kv.1 "npm:")).map (fun kv => kv.2)
    tsConfigPresent := tsConfigPresent
    tsConfigAbsolutePath := tsConfigAbsolutePath
    paths := paths
    typescriptResolutionCache := []
    npmResolutionCache := [] }

/-! ## Frame predicate and concrete scenarios -/

/-- The constructor-built (non-cache) fields of two locator states agree. -/
def sameCore (s t : LocatorState) : Prop :=
  t.nodes = s.nodes ∧ t.externalNodes = s.externalNodes ∧
  t.projectRootMappings = s.projectRootMappings ∧ t.npmProjects = s.npmProjects ∧
  t.tsConfigPresent = s.tsConfigPresent ∧
  t.tsConfigAbsolutePath = s.tsConfigAbsolutePath ∧ t.paths = s.paths

/-- Empty call counters. -/
def c0 : Calls := {}

/-- An environment in which every fallback collaborator fails to resolve:
no installed package descriptor, typescript resolution yields nothing,
`require.resolve` throws. -/
def envFail : Env :=
  { builtinModules := ["fs"]
    resolveModuleByImport := fun _ _ _ => Except.ok none
    findExternalPackageJsonPath := fun _ _ => Except.ok none
    readPackageJson := fun _ => Except.error ()
    requireResolve := fun _ _ => Except.error () }

/-- Like `envFail` but the typescript resolver throws. -/
def envThrow : Env :=
  { envFail with resolveModuleByImport := fun _ _ _ => Except.error () }

/-- An environment whose package-descriptor locator finds an installed
`left-pad` whose descriptor declares version `1.2.0`. -/
def envC4 : Env :=
  { builtinModules := ["fs"]
    resolveModuleByImport := fun _ _ _ => Except.ok none
    findExternalPackageJsonPath := fun name _ =>
      if name == "left-pad" then Except.ok (some "/workspace/node_modules/left-pad/package.json")
      else Except.ok none
    readPackageJson := fun p =>
      if p == "/workspace/node_modules/left-pad/package.json" then
        Except.ok { name := "left-pad", version := "1.2.0" }
      else Except.error ()
    requireResolve := fun _ _ => Except.error () }

/-- Locator with no projects and a tsconfig without path aliases. -/
def s0 : LocatorState := mkLocator [] [] true (some "/workspace/tsconfig.base.json") none

/-- Locator with a project rooted at `libs/shared` and the wildcard alias
of the spec's example, whose target template has an interior wildcard. -/
def sC2 : LocatorState :=
  mkLocator [("shared", ⟨"shared", "libs/shared"⟩)] [] true
    (some "/workspace/tsconfig.base.json") (some [("@org/*", ["libs/*/src/index"])])

/-- Like `sC2` but the alias target template ends in `/*`. -/
def sC2b : LocatorState :=
  mkLocator [("shared", ⟨"shared", "libs/shared"⟩)] [] true
    (some "/workspace/tsconfig.base.json") (some [("@org/*", ["libs/*"])])

/-- Locator with the external node for `left-pad@1.2.0`. -/
def sC4 : LocatorState :=
  mkLocator [] [("npm:left-pad", ⟨"npm:left-pad", "left-pad", "1.2.0"⟩)] false none none

/-- Locator with a single project rooted at `apps/lib`. -/
def sC5 : LocatorState := mkLocator [("lib", ⟨"lib", "apps/lib"⟩)] [] false none none

/-- Locator with a single project rooted at `node_modules`. -/
def sC6 : LocatorState := mkLocator [("nm", ⟨"nm", "node_modules"⟩)] [] false none none

/-- Locator whose alias table declares a wildcard pattern before an exact
pattern that the same specifier also matches. -/
def sC7 : LocatorState :=
  mkLocator [] [] true (some "/workspace/tsconfig.base.json")
    (some [("@org/*", ["wild"]), ("@org/shared", ["exact"])])

/-- First call of the resolver on the unresolvable specifier
`not-a-package` (no alias, not builtin, no descriptor, `require` throws). -/
def c1FirstCall : Except Unit (Option String) × LocatorState × Calls :=
  findProjectWithImport envFail s0 c0 "not-a-package" "libs/a" "libs/a/src/main.ts"

/-- Second call of the resolver with the identical arguments, on the state
and counters left by the first call. -/
def c1SecondCall : Except Unit (Option String) × LocatorState × Calls :=
  findProjectWithImport envFail c1FirstCall.2.1 c1FirstCall.2.2 "not-a-package" "libs/a"
    "libs/a/src/main.ts"

/-! ## Closed evidence theorems -/

/-- C1: the claim fails on the code.  For the unresolvable specifier
`not-a-package` the terminal no-match is written into `npmResolutionCache`
under the raw specifier key `"not-a-package"` while every lookup uses the
key `packageName ++ "__" ++ projectRoot`, so a second identical call runs
the external-package lookup and the runtime resolution again
(`pkgLookupCalls` and `requireCalls` go from 1 to 2) instead of exactly
once as the claim states. -/
theorem c1_no_match_not_memoized :
    c1FirstCall.1 = Except.ok none ∧ c1SecondCall.1 = Except.ok none ∧
      c1FirstCall.2.1.npmResolutionCache = [("not-a-package", none)] ∧
      c1FirstCall.2.2.pkgLookupCalls = 1 ∧ c1SecondCall.2.2.pkgLookupCalls = 2 ∧
      c1FirstCall.2.2.requireCalls = 1 ∧ c1SecondCall.2.2.requireCalls = 2 :=
  ⟨rfl, rfl, rfl, rfl, rfl, rfl, rfl⟩

/-- C2 counterexample: with alias `@org/*` mapped to the target template
`libs/*/src/index` (interior wildcard) and a project rooted at
`libs/shared`, the candidate produced for `@org/shared` is the literal
template — no suffix substitution happens because the template does not
end in `/*` — and resolution returns none rather than the project id. -/
theorem c2_interior_wildcard_counterexample :
    expandPathTarget "@org/*" "@org/shared" "libs/*/src/index" = "libs/*/src/index" ∧
      (findProjectWithImport envFail sC2 c0 "@org/shared" "apps/demo" "apps/demo/src/main.ts").1 =
        Except.ok none :=
  ⟨rfl, rfl⟩

/-- C2 amended: when the target template itself ends in `/*` the captured
suffix is substituted: alias `@org/*` with target `libs/*` resolves
`@org/shared` via the candidate `libs/shared` to the project rooted at
`libs/shared`, for every environment (no fallback collaborator is
consulted and the state is untouched). -/
theorem c2_trailing_wildcard_resolves :
    ∀ (env : Env) (c : Calls),
      findProjectWithImport env sC2b c "@org/shared" "apps/demo" "apps/demo/src/main.ts" =
        (Except.ok (some "shared"), sC2b, c) :=
  fun _ _ => rfl

/-- C3 counterexample: when the typescript resolution collaborator throws,
the exception escapes `findProjectWithImport` (the method's body has no
`try` around `resolveImportWithTypescript`), contradicting the claim that
every collaborator exception is caught and treated as no-match. -/
theorem c3_typescript_exception_propagates :
    (findProjectWithImport envThrow s0 c0 "some-lib" "libs/a" "libs/a/main.ts").1 =
      Except.error () :=
  rfl

/-- C5 counterexample: from importing file `apps/app1/src/main` the
specifier `../lib/util` joins to `apps/app1/lib/util`, which is not under
the project root `apps/lib`, so resolution returns none — not the id of
the project rooted at `apps/lib` as the claim states. -/
theorem c5_one_level_up_misses :
    joinPath (dirname "apps/app1/src/main") "../lib/util" = "apps/app1/lib/util" ∧
      (findProjectWithImport envFail sC5 c0 "../lib/util" "apps/app1" "apps/app1/src/main").1 =
        Except.ok none :=
  ⟨rfl, rfl⟩

/-- C5 amended: a relative specifier is joined against the directory of
the importing file and answered from the project-root index before any
other strategy: `../../lib/util` from `apps/app1/src/main` resolves to the
project rooted at `apps/lib`, for every environment, without touching the
caches or invoking any collaborator. -/
theorem c5_relative_resolution :
    ∀ (env : Env) (c : Calls),
      findProjectWithImport env sC5 c "../../lib/util" "apps/app1" "apps/app1/src/main" =
        (Except.ok (some "lib"), sC5, c) :=
  fun _ _ => rfl

/-- C6 counterexample: the candidate path `node_modules` (produced by the
relative strategy for specifier `./node_modules` from `main.ts`) consists
of a single leading `node_modules` component, yet it maps to the project
rooted at `node_modules`: the exclusion only rejects `node_modules/`
prefixes and `/node_modules/` infixes. -/
theorem c6_bare_node_modules_counterexample :
    joinPath (dirname "main.ts") "./node_modules" = "node_modules" ∧
      (findProjectWithImport envFail sC6 c0 "./node_modules" "apps/x" "main.ts").1 =
        Except.ok (some "nm") :=
  ⟨rfl, rfl⟩

/-- C7 counterexample: with the wildcard pattern `@org/*` declared before
the exact pattern `@org/shared`, the specifier `@org/shared` matches the
earlier wildcard pattern, yet `findPaths` returns the exact entry — so the
lookup is not "first matching pattern in declaration order". -/
theorem c7_exact_beats_earlier_wildcard :
    wildcardMatches "@org/*" "@org/shared" = true ∧
      findPaths sC7 "@org/shared" = some ("@org/shared", ["exact"]) :=
  ⟨rfl, rfl⟩

/-! ## Generic list helper lemmas -/

theorem find?_append_skip {α : Type} (p : α → Bool) (pre rest : List α)
    (h : ∀ a ∈ pre, p a = false) :
    (pre ++ rest).find? p = rest.find? p := by
  induction pre with
  | nil => rfl
  | cons a as ih =>
    have ha : p a = false := h a (by simp)
    simp only [List.cons_append, List.find?, ha]
    exact ih (fun b hb => h b (by simp [hb]))

theorem assocFind_append_skip {α : Type} (pre rest : List (String × α)) (k : String)
    (h : ∀ q ∈ pre, (q.1 == k) = false) :
    assocFind (pre ++ rest) k = assocFind rest k := by
  unfold assocFind
  rw [find?_append_skip _ pre rest h]

/-! ## Stage result lemmas (no strategy besides typescript can throw) -/

theorem afterTs_ok (env : Env) (s : LocatorState) (c : Calls) (e f : String) :
    ∃ v, (afterTs env s c e f).1 = Except.ok v := by
  unfold afterTs
  cases h : env.requireResolve e (dirname f) <;> simp [h]

theorem resolveImportWithTypescript_ok (env : Env) (s : LocatorState) (c : Calls)
    (e f : String)
    (h : ∀ x y z, ∃ r, env.resolveModuleByImport x y z = Except.ok r) :
    ∃ v, (resolveImportWithTypescript env s c e f).1 = Except.ok v := by
  unfold resolveImportWithTypescript
  by_cases hc : mapHas s.typescriptResolutionCache e
  · simp [hc]
  · obtain ⟨r, hr⟩ := h e f s.tsConfigAbsolutePath
    simp [hc, hr]

theorem afterNpm_ok (env : Env) (s : LocatorState) (c : Calls) (e f : String)
    (h : ∀ x y z, ∃ r, env.resolveModuleByImport x y z = Except.ok r) :
    ∃ v, (afterNpm env s c e f).1 = Except.ok v := by
  unfold afterNpm
  by_cases hts : s.tsConfigPresent
  · obtain ⟨res, s1, c1, hr⟩ :
        ∃ res s1 c1, resolveImportWithTypescript env s c e f = (res, s1, c1) :=
      ⟨_, _, _, rfl⟩
    obtain ⟨v, hv⟩ := resolveImportWithTypescript_ok env s c e f h
    rw [hr] at hv
    simp only [hts, if_true, hr]
    cases res with
    | error u => exact absurd hv (by simp)
    | ok r =>
      by_cases htr : jsTruthy r
      · exact ⟨r, by simp [htr]⟩
      · simpa [htr] using afterTs_ok env s1 c1 e f
  · simp only [hts, if_false]
    exact afterTs_ok env s c e f

/-! ## Claim theorems with hypotheses (C3, C4, C6, C7, C8) -/

/-- C3 amended: exceptions thrown by the external-package lookup, the
package.json read and the runtime (`require`) resolution are all caught
inside their strategy and treated as no-match, so whenever the typescript
resolution collaborator does not throw, `findProjectWithImport` never
raises to its caller.  (The unamended claim is refuted by
the counterexample: a typescript-resolver exception propagates.) -/
theorem c3_fallback_exceptions_contained (env : Env) (s : LocatorState) (c : Calls)
    (importExpr projectRoot filePath : String)
    (h : ∀ x y z, ∃ r, env.resolveModuleByImport x y z = Except.ok r) :
    (findProjectWithImport env s c importExpr projectRoot filePath).1 ≠ Except.error () := by
  unfold findProjectWithImport
  by_cases h1 : isRelativePath importExpr
  · simp [h1]
  · cases h2 : tryPaths s importExpr with
    | some proj => simp [h1, h2]
    | none =>
      by_cases h3 : importExpr ∈ builtInModuleSet env
      · simp [h1, h2, h3]
      · obtain ⟨v, s1, c1, hn⟩ :
            ∃ v s1 c1, findNpmPackage env s c importExpr projectRoot = (v, s1, c1) :=
          ⟨_, _, _, rfl⟩
        by_cases htr : jsTruthy v
        · simp [h1, h2, h3, hn, htr]
        · obtain ⟨w, hw⟩ := afterNpm_ok env s1 c1 importExpr filePath h
          simp [h1, h2, h3, hn, htr, hw]

/-- C3 amended, witness at a concrete input. -/
theorem c3_fallback_exceptions_contained_witness :
    (findProjectWithImport envFail s0 c0 "missing-pkg" "libs/a" "libs/a/main.ts").1 ≠
      Except.error () :=
  c3_fallback_exceptions_contained envFail s0 c0 "missing-pkg" "libs/a" "libs/a/main.ts"
    (fun _ _ _ => ⟨none, rfl⟩)

/-- C6 amended: a candidate path with a `node_modules/` leading prefix or a
`/node_modules/` interior component never maps to an internal project —
every strategy funnels candidates through `findProjectOfResolvedModule`,
which rejects them before consulting the project-root index.  (A path
whose final or only component is a bare `node_modules`, as in the
counterexample, is not excluded.) -/
theorem c6_node_modules_excluded (s : LocatorState) (rm : String)
    (h : (strStartsWith rm "node_modules/" || strContainsSub rm "/node_modules/") = true) :
    findProjectOfResolvedModule s rm = none := by
  unfold findProjectOfResolvedModule
  simp [h]

/-- C6 amended, witness at a concrete excluded path. -/
theorem c6_node_modules_excluded_witness :
    (strStartsWith "node_modules/lodash/index.js" "node_modules/" ||
        strContainsSub "node_modules/lodash/index.js" "/node_modules/") = true ∧
      findProjectOfResolvedModule sC6 "node_modules/lodash/index.js" = none :=
  ⟨by decide, c6_node_modules_excluded sC6 "node_modules/lodash/index.js" (by decide)⟩

/-- C7 amended: an exact alias pattern equal to the specifier wins
regardless of its position and returns its target list unmodified; only
when no exact pattern matches is the first wildcard pattern in declaration
order used; no scoring is performed. -/
theorem c7_first_match_discipline (s : LocatorState) (table : List (String × List String))
    (e : String) (hp : s.paths = some table) :
    (∀ vs, assocFind table e = some vs → findPaths s e = some (e, vs)) ∧
    (∀ (pre post : List (String × List String)) (k : String) (vs : List String),
      table = pre ++ (k, vs) :: post →
      assocFind table e = none →
      (∀ q ∈ pre, wildcardMatches q.1 e = false) →
      wildcardMatches k e = true →
      (∀ q ∈ pre, (q.1 == k) = false) →
      findPaths s e = some (k, vs)) := by
  constructor
  · intro vs hv
    simp [findPaths, hp, hv]
  · intro pre post k vs htab hnone hpre hk hkne
    subst htab
    have hkeys : ((pre ++ (k, vs) :: post).map (fun kv => kv.1)).find?
        (fun path => wildcardMatches path e) = some k := by
      rw [List.map_append]
      rw [find?_append_skip _ (pre.map (fun kv => kv.1)) _
        (by intro a ha; obtain ⟨q, hq, rfl⟩ := List.mem_map.mp ha; exact hpre q hq)]
      simp [List.find?, hk]
    have hself : assocFind (pre ++ (k, vs) :: post) k = some vs := by
      rw [assocFind_append_skip pre _ k hkne]
      simp [assocFind, List.find?]
    unfold findPaths
    rw [hp]
    simp only [hnone, hkeys, hself, Option.getD_some]

/-- C7 amended, witness: the first wildcard in declaration order is used
when no exact pattern matches. -/
theorem c7_first_match_discipline_witness :
    findPaths sC7 "@org/demo" = some ("@org/*", ["wild"]) :=
  (c7_first_match_discipline sC7 [("@org/*", ["wild"]), ("@org/shared", ["exact"])]
      "@org/demo" rfl).2
    [] [("@org/shared", ["exact"])] "@org/*" ["wild"] rfl (by decide)
    (by intro q hq; cases hq) (by decide) (by intro q hq; cases hq)

/-- C8: for a non-relative specifier with no matching path alias that is a
known builtin module name (with or without the `node:` prefix), resolution
caches a no-match and returns none with the collaborator call counters
untouched — in particular the external-package lookup is never invoked. -/
theorem c8_builtin_short_circuit (env : Env) (s : LocatorState) (c : Calls)
    (importExpr projectRoot filePath : String)
    (h1 : isRelativePath importExpr = false)
    (h2 : tryPaths s importExpr = none)
    (h3 : (builtInModuleSet env).contains importExpr = true) :
    findProjectWithImport env s c importExpr projectRoot filePath =
      (Except.ok none,
       { s with npmResolutionCache := mapSet s.npmResolutionCache importExpr none }, c) := by
  have h3m : importExpr ∈ builtInModuleSet env := by simpa using h3
  unfold findProjectWithImport
  simp [h1, h2, h3m]

/-- C8 witness: both `fs` and `node:fs` short-circuit. -/
theorem c8_builtin_short_circuit_witness :
    (findProjectWithImport envFail s0 c0 "fs" "libs/a" "libs/a/main.ts" =
      (Except.ok none,
       { s0 with npmResolutionCache := mapSet s0.npmResolutionCache "fs" none }, c0)) ∧
    (findProjectWithImport envFail s0 c0 "node:fs" "libs/a" "libs/a/main.ts" =
      (Except.ok none,
       { s0 with npmResolutionCache := mapSet s0.npmResolutionCache "node:fs" none }, c0)) :=
  ⟨c8_builtin_short_circuit envFail s0 c0 "fs" "libs/a" "libs/a/main.ts"
      (by decide) rfl (by decide),
   c8_builtin_short_circuit envFail s0 c0 "node:fs" "libs/a" "libs/a/main.ts"
      (by decide) rfl (by decide)⟩

/-- C4: for a specifier whose derived package name is `left-pad` (first
two segments for `@`-scoped specifiers, first segment otherwise), when the
nearest installed descriptor declares `left-pad@1.2.0` and the first
external node in scan order matches that name and version, resolution
returns that node's identifier. -/
theorem c4_external_package_match (env : Env) (s : LocatorState) (c : Calls)
    (importExpr projectRoot filePath pkgPath : String) (n : ExternalNode)
    (h1 : isRelativePath importExpr = false)
    (h2 : tryPaths s importExpr = none)
    (h3 : (builtInModuleSet env).contains importExpr = false)
    (h4 : parsePackageNameFromImportExpression importExpr = "left-pad")
    (h5 : mapHas s.npmResolutionCache ("left-pad" ++ "__" ++ projectRoot) = false)
    (h6 : env.findExternalPackageJsonPath "left-pad" (joinPath workspaceRoot projectRoot) =
      Except.ok (some pkgPath))
    (h7 : (pkgPath == "") = false)
    (h8 : env.readPackageJson pkgPath = Except.ok { name := "left-pad", version := "1.2.0" })
    (h9 : s.npmProjects.find? (fun pkg =>
      pkg.packageName == "left-pad" && pkg.version == "1.2.0") = some n)
    (h10 : (n.name == "") = false) :
    (findProjectWithImport env s c importExpr projectRoot filePath).1 =
      Except.ok (some n.name) := by
  have h3m : importExpr ∉ builtInModuleSet env := by simpa using h3
  have h5m : mapHas s.npmResolutionCache ("left-pad__" ++ projectRoot) = false := by
    simpa using h5
  unfold findProjectWithImport findNpmPackage
  simp [h1, h2, h3m, h4, h5m, h6, h7, h8, h9, jsTruthy, h10]

/-- C4 witness at the concrete `left-pad` scenario. -/
theorem c4_external_package_match_witness :
    (findProjectWithImport envC4 sC4 c0 "left-pad" "libs/a" "libs/a/src/main.ts").1 =
      Except.ok (some "npm:left-pad") :=
  c4_external_package_match envC4 sC4 c0 "left-pad" "libs/a" "libs/a/src/main.ts"
    "/workspace/node_modules/left-pad/package.json" ⟨"npm:left-pad", "left-pad", "1.2.0"⟩
    (by decide) rfl (by decide) (by decide) (by decide) rfl (by decide) rfl (by decide)
    (by decide)

/-! ## Frame and congruence lemmas -/

theorem sameCore_refl (s : LocatorState) : sameCore s s :=
  ⟨rfl, rfl, rfl, rfl, rfl, rfl, rfl⟩

theorem sameCore_of_npm (s : LocatorState) (x : List (String × Option String)) :
    sameCore s { s with npmResolutionCache := x } :=
  ⟨rfl, rfl, rfl, rfl, rfl, rfl, rfl⟩

theorem sameCore_of_ts (s : LocatorState) (x : List (String × Option String)) :
    sameCore s { s with typescriptResolutionCache := x } :=
  ⟨rfl, rfl, rfl, rfl, rfl, rfl, rfl⟩

theorem sameCore_trans {s t u : LocatorState} (h1 : sameCore s t) (h2 : sameCore t u) :
    sameCore s u :=
  ⟨h2.1.trans h1.1, h2.2.1.trans h1.2.1, h2.2.2.1.trans h1.2.2.1,
   h2.2.2.2.1.trans h1.2.2.2.1, h2.2.2.2.2.1.trans h1.2.2.2.2.1,
   h2.2.2.2.2.2.1.trans h1.2.2.2.2.2.1, h2.2.2.2.2.2.2.trans h1.2.2.2.2.2.2⟩

theorem findProjectOfResolvedModule_congr {s t : LocatorState} (h : sameCore s t)
    (rm : String) :
    findProjectOfResolvedModule t rm = findProjectOfResolvedModule s rm := by
  unfold findProjectOfResolvedModule findMatchingProjectFiles
  rw [h.2.2.1, h.1]

theorem tsCheck_congr {s t : LocatorState} (h : sameCore s t) (rm : Option String) :
    tsCheck t rm = tsCheck s rm := by
  unfold tsCheck
  simp only [findProjectOfResolvedModule_congr h]

theorem tryPaths_congr {s t : LocatorState} (h : sameCore s t) (e : String) :
    tryPaths t e = tryPaths s e := by
  unfold tryPaths findPaths
  rw [h.2.2.2.2.2.2]
  simp only [findProjectOfResolvedModule_congr h]

theorem tsCheck_coerce (s : LocatorState) (rm : Option String) :
    tsCheck s (if jsTruthy rm then rm else none) = tsCheck s rm := by
  cases rm with
  | none => simp
  | some m => by_cases hm : m == "" <;> simp [jsTruthy, hm, tsCheck]

theorem findNpmPackage_sameCore (env : Env) (s : LocatorState) (c : Calls)
    (e p : String) : sameCore s (findNpmPackage env s c e p).2.1 := by
  unfold findNpmPackage
  by_cases hh : mapHas s.npmResolutionCache (parsePackageNameFromImportExpression e ++ "__" ++ p)
  · simp only [hh, if_true]
    exact sameCore_refl s
  · simp only [hh, if_false, Bool.false_eq_true]
    cases henv : env.findExternalPackageJsonPath (parsePackageNameFromImportExpression e)
        (joinPath workspaceRoot p) with
    | error u => exact sameCore_refl s
    | ok o =>
      cases o with
      | none => exact sameCore_refl s
      | some path =>
        by_cases hp : path == ""
        · simp only [hp, if_true]
          exact sameCore_refl s
        · simp only [hp, if_false, Bool.false_eq_true]
          cases hr : env.readPackageJson path with
          | error u => exact sameCore_refl s
          | ok pkg =>
            dsimp only
            cases hf : s.npmProjects.find? (fun q =>
                q.packageName == pkg.name && q.version == pkg.version) with
            | none => exact sameCore_refl s
            | some n => exact sameCore_of_npm s _

theorem findNpmPackage_tsCache (env : Env) (s : LocatorState) (c : Calls)
    (e p : String) :
    (findNpmPackage env s c e p).2.1.typescriptResolutionCache =
      s.typescriptResolutionCache := by
  unfold findNpmPackage
  by_cases hh : mapHas s.npmResolutionCache (parsePackageNameFromImportExpression e ++ "__" ++ p)
  · simp [hh]
  · simp only [hh, if_false, Bool.false_eq_true]
    cases henv : env.findExternalPackageJsonPath (parsePackageNameFromImportExpression e)
        (joinPath workspaceRoot p) with
    | error u => rfl
    | ok o =>
      cases o with
      | none => rfl
      | some path =>
        by_cases hp : path == ""
        · simp [hp]
        · simp only [hp, if_false, Bool.false_eq_true]
          cases hr : env.readPackageJson path with
          | error u => rfl
          | ok pkg =>
            dsimp only
            cases hf : s.npmProjects.find? (fun q =>
                q.packageName == pkg.name && q.version == pkg.version) with
            | none => rfl
            | some n => rfl

theorem resolveImportWithTypescript_sameCore (env : Env) (s : LocatorState) (c : Calls)
    (e f : String) : sameCore s (resolveImportWithTypescript env s c e f).2.1 := by
  unfold resolveImportWithTypescript
  by_cases hh : mapHas s.typescriptResolutionCache e
  · simp only [hh, if_true]
    exact sameCore_refl s
  · simp only [hh, if_false, Bool.false_eq_true]
    cases henv : env.resolveModuleByImport e f s.tsConfigAbsolutePath with
    | error u => exact sameCore_refl s
    | ok rm => exact sameCore_of_ts s _

theorem resolveImportWithTypescript_npmCache (env : Env) (s : LocatorState) (c : Calls)
    (e f : String) :
    (resolveImportWithTypescript env s c e f).2.1.npmResolutionCache =
      s.npmResolutionCache := by
  unfold resolveImportWithTypescript
  by_cases hh : mapHas s.typescriptResolutionCache e
  · simp [hh]
  · simp only [hh, if_false, Bool.false_eq_true]
    cases henv : env.resolveModuleByImport e f s.tsConfigAbsolutePath with
    | error u => rfl
    | ok rm => rfl

theorem afterTs_sameCore (env : Env) (s : LocatorState) (c : Calls) (e f : String) :
    sameCore s (afterTs env s c e f).2.1 := by
  unfold afterTs
  cases hre : env.requireResolve e (dirname f) with
  | ok abs => exact sameCore_refl s
  | error u => exact sameCore_of_npm s _

theorem afterNpm_sameCore (env : Env) (s : LocatorState) (c : Calls) (e f : String) :
    sameCore s (afterNpm env s c e f).2.1 := by
  unfold afterNpm
  by_cases hts : s.tsConfigPresent
  · obtain ⟨res, s1, c1, hr⟩ :
        ∃ res s1 c1, resolveImportWithTypescript env s c e f = (res, s1, c1) :=
      ⟨_, _, _, rfl⟩
    have hcr : sameCore s s1 := by
      have := resolveImportWithTypescript_sameCore env s c e f
      rwa [hr] at this
    simp only [hts, if_true, hr]
    cases res with
    | error u => exact hcr
    | ok r =>
      by_cases htr : jsTruthy r
      · simpa [htr] using hcr
      · simp only [htr, if_false, Bool.false_eq_true]
        exact sameCore_trans hcr (afterTs_sameCore env s1 c1 e f)
  · simp only [hts, if_false, Bool.false_eq_true]
    exact afterTs_sameCore env s c e f

theorem findProjectWithImport_sameCore (env : Env) (s : LocatorState) (c : Calls)
    (e p f : String) : sameCore s (findProjectWithImport env s c e p f).2.1 := by
  unfold findProjectWithImport
  by_cases h1 : isRelativePath e
  · simp only [h1, if_true]
    exact sameCore_refl s
  · simp only [h1, if_false, Bool.false_eq_true]
    cases h2 : tryPaths s e with
    | some proj => exact sameCore_refl s
    | none =>
      by_cases h3 : (builtInModuleSet env).contains e
      · simp only [h3, if_true]
        exact sameCore_of_npm s _
      · simp only [h3, if_false, Bool.false_eq_true]
        obtain ⟨v, sA, cA, hn⟩ :
            ∃ v sA cA, findNpmPackage env s c e p = (v, sA, cA) := ⟨_, _, _, rfl⟩
        have hcA : sameCore s sA := by
          have := findNpmPackage_sameCore env s c e p
          rwa [hn] at this
        simp only [hn]
        by_cases htr : jsTruthy v
        · simpa [htr] using hcA
        · simp only [htr, if_false, Bool.false_eq_true]
          exact sameCore_trans hcA (afterNpm_sameCore env sA cA e f)

/-! ## The npm cache key never collides with a raw specifier key -/

theorem splitSeg_ne_nil (sep : Char) (l : List Char) : splitSeg sep l ≠ [] := by
  cases l with
  | nil => simp [splitSeg]
  | cons c cs =>
    unfold splitSeg
    cases h : splitSeg sep cs with
    | nil => simp
    | cons h1 t => by_cases hc : c = sep <;> simp [hc]

theorem joinSegsC_splitSeg (sep : Char) (l : List Char) :
    joinSegsC sep (splitSeg sep l) = l := by
  induction l with
  | nil => rfl
  | cons c cs ih =>
    unfold splitSeg
    cases h : splitSeg sep cs with
    | nil => exact absurd h (splitSeg_ne_nil sep cs)
    | cons h1 t =>
      rw [h] at ih
      by_cases hc : c = sep
      · subst hc
        simp only [if_pos rfl, joinSegsC, List.nil_append]
        cases t with
        | nil => rw [ih]
        | cons y ys => rw [ih]
      · simp only [if_neg hc]
        cases t with
        | nil =>
          simp only [joinSegsC] at ih ⊢
          rw [ih]
        | cons y ys =>
          simp only [joinSegsC, List.cons_append] at ih ⊢
          rw [ih]

theorem append_cons_ne_self (a : List Char) (x : Char) (q : List Char) :
    a ++ x :: q ≠ a := by
  intro h
  have hlen := congrArg List.length h
  simp [List.length_append] at hlen

theorem headSeg_key_ne (l q : List Char) :
    (splitSeg '/' l).headD [] ++ '_' :: '_' :: q ≠ l := by
  intro h
  cases hsp : splitSeg '/' l with
  | nil => exact absurd hsp (splitSeg_ne_nil '/' l)
  | cons s0 t =>
    have hl := joinSegsC_splitSeg '/' l
    rw [hsp] at hl h
    cases t with
    | nil =>
      simp only [joinSegsC] at hl
      subst hl
      simp only [List.headD_cons] at h
      exact append_cons_ne_self s0 '_' ('_' :: q) h
    | cons y ys =>
      simp only [joinSegsC] at hl
      rw [← hl] at h
      simp only [List.headD_cons] at h
      have := List.append_cancel_left h
      simp at this

theorem take2_key_ne (l q : List Char) :
    joinSegsC '/' ((splitSeg '/' l).take 2) ++ '_' :: '_' :: q ≠ l := by
  intro h
  cases hsp : splitSeg '/' l with
  | nil => exact absurd hsp (splitSeg_ne_nil '/' l)
  | cons s0 t =>
    have hl := joinSegsC_splitSeg '/' l
    rw [hsp] at hl h
    cases t with
    | nil =>
      simp only [joinSegsC, List.take_cons, List.take_nil] at hl h
      subst hl
      exact append_cons_ne_self s0 '_' ('_' :: q) h
    | cons s1 t2 =>
      simp only [joinSegsC, List.take_cons, List.take_nil] at hl h
      rw [← hl] at h
      rw [List.append_assoc] at h
      simp only [List.cons_append] at h
      have h2 := List.append_cancel_left h
      simp only [List.cons.injEq, true_and] at h2
      cases t2 with
      | nil =>
        simp only [joinSegsC] at h2
        exact append_cons_ne_self s1 '_' ('_' :: q) h2
      | cons z zs =>
        simp only [joinSegsC] at h2
        have h3 := List.append_cancel_left h2
        simp at h3

theorem data_joinSlash_map (ll : List (List Char)) :
    (joinSlash (ll.map ofChars)).data = joinSegsC '/' ll := by
  have hmm : (ll.map ofChars).map strChars = ll := by
    induction ll with
    | nil => rfl
    | cons a as ih => simp [strChars, ofChars, ih]
  simp [joinSlash, ofChars, hmm]

/-- The key used by the npm-package cache, `packageName ++ "__" ++
projectRoot`, can never equal the raw import expression: the package name
is a prefix of the specifier whose continuation in the specifier, if any,
starts with `/`, never with `_`. -/
theorem npmKey_ne_importExpr (e p : String) :
    parsePackageNameFromImportExpression e ++ "__" ++ p ≠ e := by
  intro h
  have hd := congrArg String.data h
  have happ : ∀ a b : String, (a ++ b).data = a.data ++ b.data := fun a b => rfl
  rw [happ, happ] at hd
  have hus : ("__" : String).data = ['_', '_'] := rfl
  rw [hus] at hd
  unfold parsePackageNameFromImportExpression at hd
  by_cases hat : strStartsWith e "@"
  · rw [if_pos hat] at hd
    have hj : (joinSlash ((strSplitSlash e).take 2)).data =
        joinSegsC '/' ((splitSeg '/' e.data).take 2) := by
      rw [strSplitSlash, ← List.map_take, data_joinSlash_map]
    rw [hj] at hd
    exact take2_key_ne e.data p.data (by simpa [List.append_assoc] using hd)
  · rw [if_neg hat] at hd
    have hh : ((strSplitSlash e).headD "").data = (splitSeg '/' e.data).headD [] := by
      rw [strSplitSlash]
      cases hsp : splitSeg '/' e.data with
      | nil => exact absurd hsp (splitSeg_ne_nil '/' e.data)
      | cons s0 t => simp [ofChars]
    rw [hh] at hd
    exact headSeg_key_ne e.data p.data (by simpa [List.append_assoc] using hd)

/-! ## Second-run lemmas for the cached stages -/

theorem find?_eq_none_of_mapHas_false {m : List (String × Option String)} {k : String}
    (h : mapHas m k = false) : m.find? (fun kv => kv.1 == k) = none := by
  unfold mapHas at h
  cases hc : m.find? (fun kv => kv.1 == k) with
  | none => rfl
  | some kv => rw [hc] at h; simp at h

theorem mapHas_eq_false_of_find?_none {m : List (String × Option String)} {k : String}
    (h : m.find? (fun kv => kv.1 == k) = none) : mapHas m k = false := by
  unfold mapHas
  rw [h]
  rfl

theorem find?_set_self (m : List (String × Option String)) (k : String) (v : Option String) :
    (mapSet m k v).find? (fun kv => kv.1 == k) = some (k, v) := by
  simp [mapSet, List.find?]

/-- A second run of `findNpmPackage` on any state whose npm cache answers
the same lookup as the first run's output cache returns the first value
and leaves the state unchanged. -/
theorem findNpmPackage_second (env : Env) (s t : LocatorState) (c c' : Calls) (e p : String)
    (hfind : t.npmResolutionCache.find?
        (fun kv => kv.1 == parsePackageNameFromImportExpression e ++ "__" ++ p) =
      (findNpmPackage env s c e p).2.1.npmResolutionCache.find?
        (fun kv => kv.1 == parsePackageNameFromImportExpression e ++ "__" ++ p))
    (hproj : t.npmProjects = s.npmProjects) :
    (findNpmPackage env t c' e p).1 = (findNpmPackage env s c e p).1 ∧
    (findNpmPackage env t c' e p).2.1 = t := by
  by_cases hh : mapHas s.npmResolutionCache (parsePackageNameFromImportExpression e ++ "__" ++ p)
  · have hout : findNpmPackage env s c e p =
        (mapGet s.npmResolutionCache (parsePackageNameFromImportExpression e ++ "__" ++ p),
         s, c) := by
      unfold findNpmPackage
      simp [hh]
    rw [hout] at hfind ⊢
    have hth : mapHas t.npmResolutionCache
        (parsePackageNameFromImportExpression e ++ "__" ++ p) = true := by
      unfold mapHas
      rw [hfind]
      unfold mapHas at hh
      exact hh
    have htg : mapGet t.npmResolutionCache
          (parsePackageNameFromImportExpression e ++ "__" ++ p) =
        mapGet s.npmResolutionCache (parsePackageNameFromImportExpression e ++ "__" ++ p) := by
      unfold mapGet
      rw [hfind]
    unfold findNpmPackage
    simp [hth, htg]
  · have hmiss : mapHas s.npmResolutionCache
        (parsePackageNameFromImportExpression e ++ "__" ++ p) = false := by
      simpa using hh
    have hsnone := find?_eq_none_of_mapHas_false hmiss
    cases henv : env.findExternalPackageJsonPath (parsePackageNameFromImportExpression e)
        (joinPath workspaceRoot p) with
    | error u =>
      have hout1 : (findNpmPackage env s c e p).1 = none := by
        unfold findNpmPackage
        simp [hmiss, henv]
      have hout2 : (findNpmPackage env s c e p).2.1.npmResolutionCache =
          s.npmResolutionCache := by
        unfold findNpmPackage
        simp [hmiss, henv]
      rw [hout2, hsnone] at hfind
      have hth := mapHas_eq_false_of_find?_none hfind
      constructor
      · rw [hout1]
        unfold findNpmPackage
        simp [hth, henv]
      · unfold findNpmPackage
        simp [hth, henv]
    | ok o =>
      cases o with
      | none =>
        have hout1 : (findNpmPackage env s c e p).1 = none := by
          unfold findNpmPackage
          simp [hmiss, henv]
        have hout2 : (findNpmPackage env s c e p).2.1.npmResolutionCache =
            s.npmResolutionCache := by
          unfold findNpmPackage
          simp [hmiss, henv]
        rw [hout2, hsnone] at hfind
        have hth := mapHas_eq_false_of_find?_none hfind
        constructor
        · rw [hout1]
          unfold findNpmPackage
          simp [hth, henv]
        · unfold findNpmPackage
          simp [hth, henv]
      | some path =>
        by_cases hp : path == ""
        · have hout1 : (findNpmPackage env s c e p).1 = none := by
            unfold findNpmPackage
            simp [hmiss, henv, hp]
          have hout2 : (findNpmPackage env s c e p).2.1.npmResolutionCache =
              s.npmResolutionCache := by
            unfold findNpmPackage
            simp [hmiss, henv, hp]
          rw [hout2, hsnone] at hfind
          have hth := mapHas_eq_false_of_find?_none hfind
          constructor
          · rw [hout1]
            unfold findNpmPackage
            simp [hth, henv, hp]
          · unfold findNpmPackage
            simp [hth, henv, hp]
        · cases hr : env.readPackageJson path with
          | error u =>
            have hout1 : (findNpmPackage env s c e p).1 = none := by
              unfold findNpmPackage
              simp [hmiss, henv, hp, hr]
            have hout2 : (findNpmPackage env s c e p).2.1.npmResolutionCache =
                s.npmResolutionCache := by
              unfold findNpmPackage
              simp [hmiss, henv, hp, hr]
            rw [hout2, hsnone] at hfind
            have hth := mapHas_eq_false_of_find?_none hfind
            constructor
            · rw [hout1]
              unfold findNpmPackage
              simp [hth, henv, hp, hr]
            · unfold findNpmPackage
              simp [hth, henv, hp, hr]
          | ok pkg =>
            cases hf : s.npmProjects.find? (fun q =>
                q.packageName == pkg.name && q.version == pkg.version) with
            | none =>
              have hout1 : (findNpmPackage env s c e p).1 = none := by
                unfold findNpmPackage
                simp [hmiss, henv, hp, hr, hf]
              have hout2 : (findNpmPackage env s c e p).2.1.npmResolutionCache =
                  s.npmResolutionCache := by
                unfold findNpmPackage
                simp [hmiss, henv, hp, hr, hf]
              rw [hout2, hsnone] at hfind
              have hth := mapHas_eq_false_of_find?_none hfind
              have hft : t.npmProjects.find? (fun q =>
                  q.packageName == pkg.name && q.version == pkg.version) = none := by
                rw [hproj]
                exact hf
              constructor
              · rw [hout1]
                unfold findNpmPackage
                simp [hth, henv, hp, hr, hft]
              · unfold findNpmPackage
                simp [hth, henv, hp, hr, hft]
            | some n =>
              have hout1 : (findNpmPackage env s c e p).1 = some n.name := by
                unfold findNpmPackage
                simp [hmiss, henv, hp, hr, hf]
              have hout2 : (findNpmPackage env s c e p).2.1.npmResolutionCache =
                  mapSet s.npmResolutionCache
                    (parsePackageNameFromImportExpression e ++ "__" ++ p) (some n.name) := by
                unfold findNpmPackage
                simp [hmiss, henv, hp, hr, hf]
              rw [hout2, find?_set_self] at hfind
              have hth : mapHas t.npmResolutionCache
                  (parsePackageNameFromImportExpression e ++ "__" ++ p) = true := by
                unfold mapHas
                rw [hfind]
                rfl
              have htg : mapGet t.npmResolutionCache
                  (parsePackageNameFromImportExpression e ++ "__" ++ p) = some n.name := by
                unfold mapGet
                rw [hfind]
              constructor
              · rw [hout1]
                unfold findNpmPackage
                simp [hth, htg]
              · unfold findNpmPackage
                simp [hth]

/-- A second run of `resolveImportWithTypescript` on any state (with the
same core fields) whose typescript cache answers the same lookup as the
first run's output cache returns the first value and leaves the state
unchanged. -/
theorem resolveImportWithTypescript_second (env : Env) (s t : LocatorState) (c c' : Calls)
    (e f : String)
    (hfind : t.typescriptResolutionCache.find? (fun kv => kv.1 == e) =
      (resolveImportWithTypescript env s c e f).2.1.typescriptResolutionCache.find?
        (fun kv => kv.1 == e))
    (hcore : sameCore s t) :
    (resolveImportWithTypescript env t c' e f).1 =
      (resolveImportWithTypescript env s c e f).1 ∧
    (resolveImportWithTypescript env t c' e f).2.1 = t := by
  by_cases hh : mapHas s.typescriptResolutionCache e
  · have hout : resolveImportWithTypescript env s c e f =
        (Except.ok (tsCheck s (mapGet s.typescriptResolutionCache e)), s, c) := by
      unfold resolveImportWithTypescript
      simp [hh]
    rw [hout] at hfind ⊢
    have hth : mapHas t.typescriptResolutionCache e = true := by
      unfold mapHas
      rw [hfind]
      unfold mapHas at hh
      exact hh
    have htg : mapGet t.typescriptResolutionCache e =
        mapGet s.typescriptResolutionCache e := by
      unfold mapGet
      rw [hfind]
    unfold resolveImportWithTypescript
    simp [hth, htg, tsCheck_congr hcore]
  · have hmiss : mapHas s.typescriptResolutionCache e = false := by simpa using hh
    have hsnone := find?_eq_none_of_mapHas_false hmiss
    cases henv : env.resolveModuleByImport e f s.tsConfigAbsolutePath with
    | error u =>
      have hout1 : (resolveImportWithTypescript env s c e f).1 = Except.error u := by
        unfold resolveImportWithTypescript
        simp [hmiss, henv]
      have hout2 : (resolveImportWithTypescript env s c e f).2.1.typescriptResolutionCache =
          s.typescriptResolutionCache := by
        unfold resolveImportWithTypescript
        simp [hmiss, henv]
      rw [hout2, hsnone] at hfind
      have hth := mapHas_eq_false_of_find?_none hfind
      have henvt : env.resolveModuleByImport e f t.tsConfigAbsolutePath = Except.error u := by
        rw [hcore.2.2.2.2.2.1]
        exact henv
      constructor
      · rw [hout1]
        unfold resolveImportWithTypescript
        simp [hth, henvt]
      · unfold resolveImportWithTypescript
        simp [hth, henvt]
    | ok rm =>
      obtain ⟨stored, hstored⟩ : ∃ stored,
          (if jsTruthy rm then rm else none) = stored := ⟨_, rfl⟩
      have hout1 : (resolveImportWithTypescript env s c e f).1 =
          Except.ok (tsCheck { s with typescriptResolutionCache := mapSet s.typescriptResolutionCache e stored } rm) := by
        unfold resolveImportWithTypescript
        simp [hmiss, henv, hstored]
      have hout2 : (resolveImportWithTypescript env s c e f).2.1.typescriptResolutionCache =
          mapSet s.typescriptResolutionCache e stored := by
        unfold resolveImportWithTypescript
        simp [hmiss, henv, hstored]
      rw [hout2, find?_set_self] at hfind
      have hth : mapHas t.typescriptResolutionCache e = true := by
        unfold mapHas
        rw [hfind]
        rfl
      have htg : mapGet t.typescriptResolutionCache e = stored := by
        unfold mapGet
        rw [hfind]
      have hval : tsCheck t stored =
          tsCheck { s with typescriptResolutionCache := mapSet s.typescriptResolutionCache e stored } rm := by
        rw [tsCheck_congr hcore, ← hstored, tsCheck_coerce]
        exact (tsCheck_congr (sameCore_of_ts s _) rm).symm
      constructor
      · rw [hout1]
        unfold resolveImportWithTypescript
        simp [hth, htg, hval]
      · unfold resolveImportWithTypescript
        simp [hth]

/-! ## Second-run behaviour of the fallback tail -/

theorem sameCore_symm {s t : LocatorState} (h : sameCore s t) : sameCore t s :=
  ⟨h.1.symm, h.2.1.symm, h.2.2.1.symm, h.2.2.2.1.symm, h.2.2.2.2.1.symm,
   h.2.2.2.2.2.1.symm, h.2.2.2.2.2.2.symm⟩

theorem find?_cons_ne (m : List (String × Option String)) (k e : String) (v : Option String)
    (h : (e == k) = false) :
    ((e, v) :: m).find? (fun kv => kv.1 == k) = m.find? (fun kv => kv.1 == k) := by
  simp [List.find?, h]

theorem importExpr_beq_npmKey_false (e p : String) :
    (e == (parsePackageNameFromImportExpression e ++ "__" ++ p)) = false :=
  beq_eq_false_iff_ne.mpr (fun hh => npmKey_ne_importExpr e p hh.symm)

theorem afterTs_tsCache (env : Env) (s : LocatorState) (c : Calls) (e f : String) :
    (afterTs env s c e f).2.1.typescriptResolutionCache = s.typescriptResolutionCache := by
  unfold afterTs
  cases hre : env.requireResolve e (dirname f) with
  | ok abs => rfl
  | error u => rfl

theorem afterTs_second (env : Env) (s t : LocatorState) (c c' : Calls) (e f : String)
    (hcore : sameCore s t) :
    (afterTs env t c' e f).1 = (afterTs env s c e f).1 := by
  unfold afterTs
  cases hre : env.requireResolve e (dirname f) with
  | ok abs => simp [findProjectOfResolvedModule_congr hcore]
  | error u => simp

/-- The npm cache of the state after the fallback tail answers any
npm-key lookup exactly as before the tail ran: the typescript stage does
not touch that cache and the terminal no-match write is keyed by the
raw specifier, which is never an npm key. -/
theorem afterNpm_npmFind (env : Env) (sA : LocatorState) (cA : Calls) (e p f : String) :
    (afterNpm env sA cA e f).2.1.npmResolutionCache.find?
        (fun kv => kv.1 == parsePackageNameFromImportExpression e ++ "__" ++ p) =
      sA.npmResolutionCache.find?
        (fun kv => kv.1 == parsePackageNameFromImportExpression e ++ "__" ++ p) := by
  have hne := importExpr_beq_npmKey_false e p
  by_cases htsp : sA.tsConfigPresent
  · obtain ⟨res, sB, cB, hrun⟩ :
        ∃ res sB cB, resolveImportWithTypescript env sA cA e f = (res, sB, cB) :=
      ⟨_, _, _, rfl⟩
    have hB : sB.npmResolutionCache = sA.npmResolutionCache := by
      have h := resolveImportWithTypescript_npmCache env sA cA e f
      rwa [hrun] at h
    unfold afterNpm
    simp only [htsp, if_true, hrun]
    cases res with
    | error u => rw [hB]
    | ok r =>
      by_cases htr : jsTruthy r
      · simp only [htr, if_true]
        rw [hB]
      · simp only [htr, if_false, Bool.false_eq_true]
        unfold afterTs
        cases hre : env.requireResolve e (dirname f) with
        | ok abs => rw [hB]
        | error u =>
          show ((mapSet sB.npmResolutionCache e none).find? _) = _
          rw [mapSet, find?_cons_ne _ _ _ _ hne, hB]
  · unfold afterNpm
    simp only [htsp, if_false, Bool.false_eq_true]
    unfold afterTs
    cases hre : env.requireResolve e (dirname f) with
    | ok abs => rfl
    | error u =>
      show ((mapSet sA.npmResolutionCache e none).find? _) = _
      rw [mapSet, find?_cons_ne _ _ _ _ hne]

/-- A second run of the fallback tail (typescript strategy then `require`
strategy) on any state with the same core whose typescript cache answers
the lookup like the first run's output returns the first run's result. -/
theorem afterNpm_second (env : Env) (sA t : LocatorState) (cA c' : Calls) (e f : String)
    (hcore : sameCore sA t)
    (hts : t.typescriptResolutionCache.find? (fun kv => kv.1 == e) =
      (afterNpm env sA cA e f).2.1.typescriptResolutionCache.find? (fun kv => kv.1 == e)) :
    (afterNpm env t c' e f).1 = (afterNpm env sA cA e f).1 := by
  by_cases htsp : sA.tsConfigPresent
  · have htspt : t.tsConfigPresent = true := by
      rw [hcore.2.2.2.2.1]
      exact htsp
    obtain ⟨res, sB, cB, hrun⟩ :
        ∃ res sB cB, resolveImportWithTypescript env sA cA e f = (res, sB, cB) :=
      ⟨_, _, _, rfl⟩
    have hcoreB : sameCore sA sB := by
      have h := resolveImportWithTypescript_sameCore env sA cA e f
      rwa [hrun] at h
    have houtts : (afterNpm env sA cA e f).2.1.typescriptResolutionCache =
        sB.typescriptResolutionCache := by
      unfold afterNpm
      simp only [htsp, if_true, hrun]
      cases res with
      | error u => rfl
      | ok r =>
        by_cases htr : jsTruthy r
        · simp only [htr, if_true]
        · simp only [htr, if_false, Bool.false_eq_true]
          exact afterTs_tsCache env sB cB e f
    rw [houtts] at hts
    have htssec := resolveImportWithTypescript_second env sA t cA c' e f
      (by rw [hrun]; exact hts) hcore
    obtain ⟨res2, st2, ct2, hrun2⟩ :
        ∃ res2 st2 ct2, resolveImportWithTypescript env t c' e f = (res2, st2, ct2) :=
      ⟨_, _, _, rfl⟩
    have hres2 : res2 = res := by
      have h := htssec.1
      rw [hrun2, hrun] at h
      exact h
    have hst2 : st2 = t := by
      have h := htssec.2
      rw [hrun2] at h
      exact h
    unfold afterNpm
    simp only [htsp, htspt, if_true, hrun, hrun2, hres2, hst2]
    cases res with
    | error u => rfl
    | ok r =>
      by_cases htr : jsTruthy r
      · simp only [htr, if_true]
      · simp only [htr, if_false, Bool.false_eq_true]
        exact afterTs_second env sB t cB ct2 e f
          (sameCore_trans (sameCore_symm hcoreB) hcore)
  · have htspt : t.tsConfigPresent = false := by
      rw [hcore.2.2.2.2.1]
      simpa using htsp
    unfold afterNpm
    simp only [htsp, htspt, if_false, Bool.false_eq_true]
    exact afterTs_second env sA t cA c' e f hcore

/-- Two successive calls of `findProjectWithImport` with identical
arguments return identical results: the result of the first call is
deterministic given the environment, every cache the second call consults
either is untouched or holds exactly what the first call computed, and the
stray no-match cache entry (keyed by the raw specifier) is invisible to
every lookup. -/
theorem findProjectWithImport_idem (env : Env) (s : LocatorState) (c : Calls)
    (e p f : String) :
    (findProjectWithImport env (findProjectWithImport env s c e p f).2.1
        (findProjectWithImport env s c e p f).2.2 e p f).1 =
      (findProjectWithImport env s c e p f).1 := by
  by_cases h1 : isRelativePath e
  · have hfirst : findProjectWithImport env s c e p f =
        (Except.ok (findProjectOfResolvedModule s (joinPath (dirname f) e)), s, c) := by
      unfold findProjectWithImport
      simp [h1]
    simp [hfirst]
  · cases h2 : tryPaths s e with
    | some proj =>
      have hfirst : findProjectWithImport env s c e p f = (Except.ok (some proj), s, c) := by
        unfold findProjectWithImport
        simp [h1, h2]
      simp [hfirst]
    | none =>
      by_cases h3 : e ∈ builtInModuleSet env
      · have hfirst : findProjectWithImport env s c e p f =
            (Except.ok none,
             { s with npmResolutionCache := mapSet s.npmResolutionCache e none }, c) := by
          unfold findProjectWithImport
          simp [h1, h2, h3]
        have h2b : tryPaths
            { s with npmResolutionCache := mapSet s.npmResolutionCache e none } e = none :=
          (tryPaths_congr (sameCore_of_npm s _) e).trans h2
        have hsecond : (findProjectWithImport env
            { s with npmResolutionCache := mapSet s.npmResolutionCache e none } c e p f).1 =
            Except.ok none := by
          unfold findProjectWithImport
          simp [h1, h2b, h3]
        rw [hfirst]
        exact hsecond
      · obtain ⟨v, sA, cA, hn⟩ :
            ∃ v sA cA, findNpmPackage env s c e p = (v, sA, cA) := ⟨_, _, _, rfl⟩
        have hcoreA : sameCore s sA := by
          have h := findNpmPackage_sameCore env s c e p
          rwa [hn] at h
        by_cases htr : jsTruthy v
        · have hfirst : findProjectWithImport env s c e p f = (Except.ok v, sA, cA) := by
            unfold findProjectWithImport
            simp [h1, h2, h3, hn, htr]
          have h2A : tryPaths sA e = none := (tryPaths_congr hcoreA e).trans h2
          have hsecnpm := findNpmPackage_second env s sA c cA e p
            (by rw [hn]) hcoreA.2.2.2.1
          obtain ⟨v2, s2, c2, hn2⟩ :
              ∃ v2 s2 c2, findNpmPackage env sA cA e p = (v2, s2, c2) := ⟨_, _, _, rfl⟩
          have hv2 : v2 = v := by
            have h := hsecnpm.1
            rw [hn2, hn] at h
            exact h
          have hsecond : (findProjectWithImport env sA cA e p f).1 = Except.ok v := by
            unfold findProjectWithImport
            simp [h1, h2A, h3, hn2, hv2, htr]
          rw [hfirst]
          exact hsecond
        · have hfirst : findProjectWithImport env s c e p f = afterNpm env sA cA e f := by
            unfold findProjectWithImport
            simp [h1, h2, h3, hn, htr]
          have hcoreS1 : sameCore s (afterNpm env sA cA e f).2.1 :=
            sameCore_trans hcoreA (afterNpm_sameCore env sA cA e f)
          have h2S1 : tryPaths (afterNpm env sA cA e f).2.1 e = none :=
            (tryPaths_congr hcoreS1 e).trans h2
          have hsecnpm := findNpmPackage_second env s (afterNpm env sA cA e f).2.1 c
            (afterNpm env sA cA e f).2.2 e p
            (by rw [hn]; exact afterNpm_npmFind env sA cA e p f) hcoreS1.2.2.2.1
          obtain ⟨v2, s2, c2, hn2⟩ : ∃ v2 s2 c2,
              findNpmPackage env (afterNpm env sA cA e f).2.1
                (afterNpm env sA cA e f).2.2 e p = (v2, s2, c2) := ⟨_, _, _, rfl⟩
          have hv2 : v2 = v := by
            have h := hsecnpm.1
            rw [hn2, hn] at h
            exact h
          have hs2 : s2 = (afterNpm env sA cA e f).2.1 := by
            have h := hsecnpm.2
            rw [hn2] at h
            exact h
          have htail : (afterNpm env s2 c2 e f).1 = (afterNpm env sA cA e f).1 := by
            rw [hs2]
            exact afterNpm_second env sA (afterNpm env sA cA e f).2.1 cA c2 e f
              (afterNpm_sameCore env sA cA e f) rfl
          have hsecond : (findProjectWithImport env (afterNpm env sA cA e f).2.1
              (afterNpm env sA cA e f).2.2 e p f).1 = (afterNpm env sA cA e f).1 := by
            unfold findProjectWithImport
            simp [h1, h2S1, h3, hn2, hv2, htr]
            exact htail
          rw [hfirst]
          exact hsecond

/-- C9 counterexample: the second of two identical calls is not free — for
an unresolvable specifier it runs the external-package lookup and the
runtime (`require`) resolution again (both counters go from 1 to 2), so
"zero additional filesystem/fallback work" fails; the results themselves
are identical. -/
theorem c9_second_call_repeats_work :
    let t1 := findProjectWithImport envFail s0 c0 "missing-dep" "libs/b" "libs/b/src/index.ts"
    let t2 := findProjectWithImport envFail t1.2.1 t1.2.2 "missing-dep" "libs/b" "libs/b/src/index.ts"
    t1.1 = t2.1 ∧ t1.2.2.requireCalls = 1 ∧ t2.2.2.requireCalls = 2 ∧
      t1.2.2.pkgLookupCalls = 1 ∧ t2.2.2.pkgLookupCalls = 2 ∧
      t1.2.2.tsResolveCalls = 1 ∧ t2.2.2.tsResolveCalls = 1 :=
  ⟨rfl, rfl, rfl, rfl, rfl, rfl, rfl⟩

/-- C9 amended: two successive calls to `findProjectWithImport` with
identical arguments on the same instance return identical results (for
every environment, state and argument triple); the second call may however
repeat the package-descriptor lookup and the runtime resolution, as the
counterexample shows — only the typescript resolution and successful npm
matches are effectively cached. -/
theorem c9_resolve_idempotent_result (env : Env) (s : LocatorState) (c : Calls)
    (importExpr projectRoot filePath : String) :
    (findProjectWithImport env
        (findProjectWithImport env s c importExpr projectRoot filePath).2.1
        (findProjectWithImport env s c importExpr projectRoot filePath).2.2
        importExpr projectRoot filePath).1 =
      (findProjectWithImport env s c importExpr projectRoot filePath).1 :=
  findProjectWithImport_idem env s c importExpr projectRoot filePath

/-- C10: every call of `findProjectWithImport` leaves all constructor-built
state untouched — the project nodes, external nodes, project-root
mappings, npm-project list, loaded tsconfig flag and path, and the alias
table — for every environment, state and argument triple; only the two
resolution caches can change. -/
theorem c10_only_caches_mutated (env : Env) (s : LocatorState) (c : Calls)
    (importExpr projectRoot filePath : String) :
    sameCore s (findProjectWithImport env s c importExpr projectRoot filePath).2.1 :=
  findProjectWithImport_sameCore env s c importExpr projectRoot filePath
